import Mathlib

/-!
Verification of the statistics / outlier-detection / histogram engine of
`bench/open-ntimes.c` (landlock-test-tools).

The C code is shallowly embedded: `uint64_t` fields are modelled as `Nat`
with an explicit `% 2^64` wherever the C code performs arithmetic that can
wrap; `double` quantities (means, thresholds, variances) are modelled as
exact rationals `ℚ`.  The reported `stddev` is `sqrt(variance)` in the C
code; here the `variance` passed to `sqrt` is tracked exactly instead, so
"stddev² ≥ 0" is expressed as "variance ≥ 0".
-/

/-- The modulus of `uint64_t` arithmetic. -/
def U64 : Nat := 2 ^ 64

/-- `struct stats` from open-ntimes.c (all fields `uint64_t`). -/
structure Stats where
  sum : Nat
  sum_of_squares : Nat
  min : Nat
  max : Nat
  count : Nat
deriving DecidableEq

/-- The initializer of `stats` in `main`:
`{.sum = 0, .sum_of_squares = 0, .min = UINT64_MAX, .max = 0, .count = 0}`. -/
def initStats : Stats :=
  { sum := 0, sum_of_squares := 0, min := U64 - 1, max := 0, count := 0 }

/-- `add_stat`: `sum += value; sum_of_squares += value*value; count++;`
followed by the min/max updates.  All additions are `uint64_t` additions,
hence the `% U64`. -/
def add_stat (s : Stats) (value : Nat) : Stats :=
  { sum := (s.sum + value) % U64
    sum_of_squares := (s.sum_of_squares + value * value) % U64
    min := if value < s.min then value else s.min
    max := if value > s.max then value else s.max
    count := (s.count + 1) % U64 }

/-- `compute_mean`: writes `0` and returns `false` when `count == 0`,
otherwise writes `(double)sum / count` and returns `true`.  The written
mean is the first component, the C return value the second. -/
def compute_mean (s : Stats) : ℚ × Bool :=
  if s.count = 0 then (0, false) else (((s.sum : ℚ) / (s.count : ℚ)), true)

/-- `struct outlier_detection` (`calibration_avg` and `threshold` are
`double`, modelled as `ℚ`; the two counters are `uint64_t`). -/
structure OutlierDetection where
  initialized : Bool
  calibration_avg : ℚ
  threshold : ℚ
  outlier_count : Nat
  samples_after_init : Nat
deriving DecidableEq

/-- The initializer of `od` in `main`: everything false / zero. -/
def initOd : OutlierDetection :=
  { initialized := false, calibration_avg := 0, threshold := 0
    outlier_count := 0, samples_after_init := 0 }

/-- `OUTLIER_THRESHOLD_MULTIPLIER` (10). -/
def OUTLIER_THRESHOLD_MULTIPLIER : ℚ := 10

/-- `OUTLIER_CALIBRATION_SAMPLES` (50). -/
def OUTLIER_CALIBRATION_SAMPLES : Nat := 50

/-- `init_outlier_detection`: returns the updated detector together with
the C return value.  When `compute_mean` fails (`count == 0`) the detector
is returned untouched and the result is `false`; otherwise the detector is
armed with `threshold = mean * OUTLIER_THRESHOLD_MULTIPLIER` and both
counters reset. -/
def init_outlier_detection (od : OutlierDetection) (s : Stats) :
    OutlierDetection × Bool :=
  let m := compute_mean s
  if m.2 = false then (od, false)
  else
    ({ initialized := true
       calibration_avg := m.1
       threshold := m.1 * OUTLIER_THRESHOLD_MULTIPLIER
       outlier_count := 0
       samples_after_init := 0 }, true)

/-- `check_outlier`: returns the updated detector and whether the sample
was classified as an outlier.  An uninitialized detector returns `false`
without touching any field; an initialized one increments
`samples_after_init` (a `uint64_t` increment) and, iff
`(double)value > threshold`, also increments `outlier_count`. -/
def check_outlier (od : OutlierDetection) (value : Nat) :
    OutlierDetection × Bool :=
  if od.initialized = false then (od, false)
  else
    let od' := { od with samples_after_init := (od.samples_after_init + 1) % U64 }
    if (value : ℚ) > od'.threshold then
      ({ od' with outlier_count := (od'.outlier_count + 1) % U64 }, true)
    else (od', false)

/-- `check_outlier_warning`, modelled as whether the warning line is
printed: nothing is printed when the detector is uninitialized or has seen
no post-calibration sample; otherwise the warning is printed iff
`outlier_count / samples_after_init * 100 > OUTLIER_THRESHOLD_PERCENT`
(5.0). -/
def check_outlier_warning (od : OutlierDetection) : Bool :=
  if od.initialized = false ∨ od.samples_after_init = 0 then false
  else
    decide ((od.outlier_count : ℚ) / (od.samples_after_init : ℚ) * 100 > 5)

/-- The numeric fields of the `cstats` JSON record emitted by
`print_stats`.  The C code prints `stddev = sqrt(variance)`; the exact
`variance` handed to `sqrt` is recorded here instead (the C code applies
no clamping before the square root). -/
structure CStats where
  ntimes : Nat
  mean : ℚ
  variance : ℚ
  min : Nat
  max : Nat
  sum_of_squares : Nat
deriving DecidableEq

/-- `print_stats`: `mean = (double)sum / ntimes`,
`variance = (double)sum_of_squares / ntimes - mean * mean` (no clamp). -/
def print_stats (s : Stats) (ntimes : Nat) : CStats :=
  let mean : ℚ := (s.sum : ℚ) / (ntimes : ℚ)
  { ntimes := ntimes
    mean := mean
    variance := (s.sum_of_squares : ℚ) / (ntimes : ℚ) - mean * mean
    min := s.min
    max := s.max
    sum_of_squares := s.sum_of_squares }

/-- `HIST_MIN` (100 ns). -/
def HIST_MIN : Nat := 100

/-- `HIST_STEP` (100 ns). -/
def HIST_STEP : Nat := 100

/-- `HIST_MAX` (2000 ns). -/
def HIST_MAX : Nat := 2000

/-- `HIST_BUCKETS = (HIST_MAX - HIST_MIN) / HIST_STEP` (19). -/
def HIST_BUCKETS : Nat := (HIST_MAX - HIST_MIN) / HIST_STEP

/-- `get_hist_bucket`: `-1` when the value is below `HIST_MIN` or at/above
`HIST_MAX`, otherwise `(value - HIST_MIN) / HIST_STEP` (the subtraction is
guarded, so it never wraps). -/
def get_hist_bucket (value : Nat) : Int :=
  if value < HIST_MIN ∨ value ≥ HIST_MAX then -1
  else (((value - HIST_MIN) / HIST_STEP : Nat) : Int)

/-- `add_to_histogram`: increments `histogram[bucket]` (a `uint64_t`
counter) when `0 <= bucket < HIST_BUCKETS`, otherwise leaves the array
unchanged.  The `calloc`ed C array is modelled as a `List Nat` of length
`HIST_BUCKETS`. -/
def add_to_histogram (h : List Nat) (value : Nat) : List Nat :=
  let bucket := get_hist_bucket value
  if 0 ≤ bucket ∧ bucket < (HIST_BUCKETS : Int) then
    h.set bucket.toNat ((h.getD bucket.toNat 0 + 1) % U64)
  else h

/-- The mutable state threaded through the measurement loop of `main`. -/
structure LoopState where
  stats : Stats
  od : OutlierDetection
  histogram : List Nat
deriving DecidableEq

/-- The state at the top of the measurement loop: freshly initialized
stats and detector, `calloc`-zeroed histogram. -/
def initState : LoopState :=
  { stats := initStats, od := initOd, histogram := List.replicate HIST_BUCKETS 0 }

/-- `prepare_ntimes = ntimes / 5` (C integer division of positive values). -/
def prepareNtimes (ntimes : Nat) : Nat := ntimes / 5

/-- `outlier_init_point`: `prepare_ntimes + OUTLIER_CALIBRATION_SAMPLES`
when `ntimes >= OUTLIER_CALIBRATION_SAMPLES`, else `-1` (outlier detection
skipped). -/
def outlierInitPoint (ntimes : Nat) : Int :=
  if ntimes ≥ OUTLIER_CALIBRATION_SAMPLES then
    ((prepareNtimes ntimes + OUTLIER_CALIBRATION_SAMPLES : Nat) : Int)
  else -1

/-- One iteration of the measurement loop of `main`, at loop index `i`,
for a measured duration `ns` (nanoseconds).  Warm-up iterations
(`i < prepare_ntimes`) leave the accumulation state untouched; afterwards
the sample always goes to the histogram, the detector is armed exactly at
`outlier_init_point` (that sample is also added to the stats), and once
armed the sample reaches the stats only if `check_outlier` rejects it as
a non-outlier.  Expected-outcome checking and clock reads are handled by
`main_model` below. -/
def loop_body (ntimes : Nat) (i : Nat) (st : LoopState) (ns : Nat) : LoopState :=
  if i < prepareNtimes ntimes then st
  else
    let hist := add_to_histogram st.histogram ns
    if outlierInitPoint ntimes ≥ 0 ∧ (i : Int) = outlierInitPoint ntimes then
      { stats := add_stat st.stats ns
        od := (init_outlier_detection st.od st.stats).1
        histogram := hist }
    else if st.od.initialized then
      let r := check_outlier st.od ns
      { stats := if r.2 then st.stats else add_stat st.stats ns
        od := r.1
        histogram := hist }
    else
      { stats := add_stat st.stats ns, od := st.od, histogram := hist }

/-- The measurement loop, starting at loop index `i`, run over a list of
measured durations. -/
def run_loop (ntimes : Nat) : Nat → LoopState → List Nat → LoopState
  | _, st, [] => st
  | i, st, ns :: rest => run_loop ntimes (i + 1) (loop_body ntimes i st ns) rest

/-- The state after the first `k` iterations of a run whose per-iteration
durations are `samples` (a full run has `prepare_ntimes + ntimes`
iterations). -/
def stateAt (ntimes : Nat) (samples : List Nat) (k : Nat) : LoopState :=
  run_loop ntimes 0 initState (samples.take k)

/-- A completed run over all iterations. -/
def run_main (ntimes : Nat) (samples : List Nat) : LoopState :=
  run_loop ntimes 0 initState samples

/-- The final report of `main`: `print_stats(&stats, stats.count)`. -/
def final_report (st : LoopState) : CStats :=
  print_stats st.stats st.stats.count

/-- The observable result of one invocation of `main`: its exit code,
whether anything was written to standard error, and whether the `cstats` /
`chist` records were printed. -/
structure MainResult where
  exit_code : Nat
  stderr_report : Bool
  stats_printed : Bool
  hist_printed : Bool
deriving DecidableEq

/-- Whether one iteration's `open` outcome aborts the run: a failed open
(`some e`, errno `e`) is fatal iff `e` differs from the expected errno; a
successful open (`none`) is fatal iff a failure was expected
(`err != 0`). -/
def outcome_mismatch (err : Int) (o : Option Int) : Bool :=
  match o with
  | some e => decide (err ≠ e)
  | none => decide (err ≠ 0)

/-- The control flow of `main`, in source order: `argc != 4` exits 1
silently; a failed `calloc` exits 1 after `perror` (standard error);
`ntimes <= 0` exits 1 silently; the first iteration whose outcome
mismatches the expected errno exits 1 after a report to standard error
(the loop aborts at the first mismatch, so the run fails iff some
iteration mismatches); otherwise the run completes, prints the `cstats`
and `chist` records and exits 0.  Clock reads are modelled as succeeding
(a failed `clock_gettime` is logged but non-fatal and does not affect the
exit code). -/
def main_model (argc : Nat) (alloc_ok : Bool) (ntimes : Int) (err : Int)
    (outcomes : List (Option Int)) : MainResult :=
  if argc ≠ 4 then
    { exit_code := 1, stderr_report := false, stats_printed := false, hist_printed := false }
  else if alloc_ok = false then
    { exit_code := 1, stderr_report := true, stats_printed := false, hist_printed := false }
  else if ntimes ≤ 0 then
    { exit_code := 1, stderr_report := false, stats_printed := false, hist_printed := false }
  else if outcomes.any (outcome_mismatch err) then
    { exit_code := 1, stderr_report := true, stats_printed := false, hist_printed := false }
  else
    { exit_code := 0, stderr_report := false, stats_printed := true, hist_printed := true }

/-! ## Helper lemmas about folding `add_stat` over a sample list -/

lemma foldl_add_stat_min_le_start : ∀ (l : List Nat) (s : Stats),
    (l.foldl add_stat s).min ≤ s.min := by
  intro l
  induction l with
  | nil => intro s; exact le_refl _
  | cons v t ih =>
    intro s
    refine le_trans (ih (add_stat s v)) ?_
    simp only [add_stat]
    split <;> omega

lemma foldl_add_stat_min_le : ∀ (l : List Nat) (s : Stats) (v : Nat), v ∈ l →
    (l.foldl add_stat s).min ≤ v := by
  intro l
  induction l with
  | nil => intro s v hv; simp at hv
  | cons a t ih =>
    intro s v hv
    rcases List.mem_cons.mp hv with rfl | hv
    · refine le_trans (foldl_add_stat_min_le_start t (add_stat s v)) ?_
      simp only [add_stat]
      split <;> omega
    · exact ih (add_stat s a) v hv

lemma foldl_add_stat_le_max_start : ∀ (l : List Nat) (s : Stats),
    s.max ≤ (l.foldl add_stat s).max := by
  intro l
  induction l with
  | nil => intro s; exact le_refl _
  | cons v t ih =>
    intro s
    refine le_trans ?_ (ih (add_stat s v))
    simp only [add_stat]
    split <;> omega

lemma foldl_add_stat_le_max : ∀ (l : List Nat) (s : Stats) (v : Nat), v ∈ l →
    v ≤ (l.foldl add_stat s).max := by
  intro l
  induction l with
  | nil => intro s v hv; simp at hv
  | cons a t ih =>
    intro s v hv
    rcases List.mem_cons.mp hv with rfl | hv
    · refine le_trans ?_ (foldl_add_stat_le_max_start t (add_stat s v))
      simp only [add_stat]
      split <;> omega
    · exact ih (add_stat s a) v hv

lemma foldl_add_stat_sum : ∀ (l : List Nat) (s : Stats), s.sum + l.sum < U64 →
    (l.foldl add_stat s).sum = s.sum + l.sum := by
  intro l
  induction l with
  | nil => intro s _; simp
  | cons v t ih =>
    intro s h
    simp only [List.sum_cons] at h
    have h1 : s.sum + v < U64 := by omega
    have h2 : (add_stat s v).sum = s.sum + v := by
      simp only [add_stat]
      exact Nat.mod_eq_of_lt h1
    simp only [List.foldl_cons, List.sum_cons]
    rw [ih (add_stat s v) (by rw [h2]; omega), h2]
    omega

lemma foldl_add_stat_count : ∀ (l : List Nat) (s : Stats), s.count + l.length < U64 →
    (l.foldl add_stat s).count = s.count + l.length := by
  intro l
  induction l with
  | nil => intro s _; simp
  | cons v t ih =>
    intro s h
    simp only [List.length_cons] at h
    have h2 : (add_stat s v).count = s.count + 1 := by
      simp only [add_stat]
      exact Nat.mod_eq_of_lt (by omega)
    simp only [List.foldl_cons, List.length_cons]
    rw [ih (add_stat s v) (by rw [h2]; omega), h2]
    omega

lemma mul_length_le_sum : ∀ (l : List Nat) (a : Nat), (∀ v ∈ l, a ≤ v) →
    a * l.length ≤ l.sum := by
  intro l
  induction l with
  | nil => intro a _; simp
  | cons v t ih =>
    intro a h
    simp only [List.length_cons, List.sum_cons, Nat.mul_succ]
    have h1 := ih a (fun u hu => h u (List.mem_cons_of_mem v hu))
    have h2 := h v (List.mem_cons_self v t)
    omega

lemma sum_le_mul_length : ∀ (l : List Nat) (b : Nat), (∀ v ∈ l, v ≤ b) →
    l.sum ≤ b * l.length := by
  intro l
  induction l with
  | nil => intro b _; simp
  | cons v t ih =>
    intro b h
    simp only [List.length_cons, List.sum_cons, Nat.mul_succ]
    have h1 := ih b (fun u hu => h u (List.mem_cons_of_mem v hu))
    have h2 := h v (List.mem_cons_self v t)
    omega

/-! ## Helper lemmas about the histogram -/

lemma sum_set_getD_add_one : ∀ (h : List Nat) (i : Nat), i < h.length →
    (h.set i (h.getD i 0 + 1)).sum = h.sum + 1 := by
  intro h
  induction h with
  | nil => intro i hi; simp at hi
  | cons a t ih =>
    intro i hi
    cases i with
    | zero => simp [List.getD_cons_zero]; omega
    | succ j =>
      simp only [List.length_cons] at hi
      have := ih j (by omega)
      show (a :: t.set j (t.getD j 0 + 1)).sum = (a :: t).sum + 1
      simp only [List.sum_cons]
      omega

lemma hist_in_range_step (h : List Nat) (v : Nat)
    (hcap : h.getD ((v - HIST_MIN) / HIST_STEP) 0 + 1 < U64)
    (hv : HIST_MIN ≤ v ∧ v < HIST_MAX) :
    add_to_histogram h v =
      h.set ((v - HIST_MIN) / HIST_STEP) (h.getD ((v - HIST_MIN) / HIST_STEP) 0 + 1) := by
  have hb : get_hist_bucket v = (((v - HIST_MIN) / HIST_STEP : Nat) : Int) := by
    simp only [get_hist_bucket]
    rw [if_neg]
    push_neg
    exact ⟨by omega, by omega⟩
  simp only [add_to_histogram, hb]
  rw [if_pos]
  · rw [Int.toNat_natCast]
    congr 1
    exact Nat.mod_eq_of_lt hcap
  · constructor
    · exact Int.ofNat_nonneg _
    · have : (v - HIST_MIN) / HIST_STEP < HIST_BUCKETS := by
        simp only [HIST_MIN, HIST_STEP, HIST_MAX, HIST_BUCKETS] at *
        omega
      exact_mod_cast this

lemma hist_out_range_step (h : List Nat) (v : Nat)
    (hv : ¬(HIST_MIN ≤ v ∧ v < HIST_MAX)) :
    add_to_histogram h v = h := by
  have hb : get_hist_bucket v = -1 := by
    simp only [get_hist_bucket]
    rw [if_pos]
    omega
  simp [add_to_histogram, hb]

lemma fold_hist_sum : ∀ (l : List Nat) (h : List Nat), h.length = HIST_BUCKETS →
    (∀ x ∈ h, x + l.length < U64) →
    (l.foldl add_to_histogram h).sum =
      h.sum + (l.filter fun u => decide (HIST_MIN ≤ u ∧ u < HIST_MAX)).length := by
  intro l
  induction l with
  | nil => intro h _ _; simp
  | cons v t ih =>
    intro h hh hcap
    by_cases hv : HIST_MIN ≤ v ∧ v < HIST_MAX
    · have hidx : (v - HIST_MIN) / HIST_STEP < h.length := by
        simp only [HIST_MIN, HIST_STEP, HIST_MAX, HIST_BUCKETS] at *
        omega
      have hmem : h.getD ((v - HIST_MIN) / HIST_STEP) 0 ∈ h := by
        rw [List.getD_eq_getElem h 0 hidx]
        exact List.getElem_mem hidx
      have hcap1 : h.getD ((v - HIST_MIN) / HIST_STEP) 0 + 1 < U64 := by
        have := hcap _ hmem
        simp only [List.length_cons] at this
        omega
      have hstep := hist_in_range_step h v hcap1 hv
      simp only [List.foldl_cons, hstep]
      rw [ih _ (by rw [List.length_set]; exact hh) ?caps]
      case caps =>
        intro x hx
        rcases List.mem_or_eq_of_mem_set hx with hx | rfl
        · have := hcap x hx
          simp only [List.length_cons] at this
          omega
        · have := hcap _ hmem
          simp only [List.length_cons] at this
          omega
      rw [sum_set_getD_add_one h _ hidx]
      have hfil : (v :: t).filter (fun u => decide (HIST_MIN ≤ u ∧ u < HIST_MAX)) =
          v :: t.filter (fun u => decide (HIST_MIN ≤ u ∧ u < HIST_MAX)) := by
        simp [List.filter_cons, hv]
      rw [hfil]
      simp only [List.length_cons]
      omega
    · have hstep := hist_out_range_step h v hv
      simp only [List.foldl_cons, hstep]
      rw [ih h hh ?caps2]
      case caps2 =>
        intro x hx
        have := hcap x hx
        simp only [List.length_cons] at this
        omega
      have hfil : (v :: t).filter (fun u => decide (HIST_MIN ≤ u ∧ u < HIST_MAX)) =
          t.filter (fun u => decide (HIST_MIN ≤ u ∧ u < HIST_MAX)) := by
        simp [List.filter_cons, hv]
      rw [hfil]

/-! ## Helper lemmas about the measurement loop of main -/

lemma run_loop_append (ntimes : Nat) (l : List Nat) : ∀ (i : Nat) (st : LoopState) (a : Nat),
    run_loop ntimes i st (l ++ [a]) = loop_body ntimes (i + l.length) (run_loop ntimes i st l) a := by
  induction l with
  | nil => intro i st a; simp [run_loop]
  | cons x t ih =>
    intro i st a
    simp only [List.cons_append, run_loop, List.length_cons, List.append_eq]
    rw [ih]
    have h1 : i + 1 + t.length = i + (t.length + 1) := by omega
    rw [h1]

lemma stateAt_succ (ntimes : Nat) (samples : List Nat) (k : Nat) (hk : k < samples.length) :
    stateAt ntimes samples (k + 1) =
      loop_body ntimes k (stateAt ntimes samples k) (samples.getD k 0) := by
  unfold stateAt
  rw [List.take_succ, List.getElem?_eq_getElem hk]
  simp only [Option.toList_some]
  rw [run_loop_append]
  rw [List.length_take]
  have h1 : 0 + min k samples.length = k := by omega
  rw [h1]
  congr 1
  exact (List.getD_eq_getElem _ _ hk).symm

lemma loop_body_warmup (ntimes i : Nat) (st : LoopState) (ns : Nat)
    (h : i < prepareNtimes ntimes) : loop_body ntimes i st ns = st := by
  simp [loop_body, h]

lemma loop_body_pre (ntimes i : Nat) (st : LoopState) (ns : Nat)
    (hP : ¬ i < prepareNtimes ntimes)
    (harm : ¬(OUTLIER_CALIBRATION_SAMPLES ≤ ntimes ∧
      i = prepareNtimes ntimes + OUTLIER_CALIBRATION_SAMPLES))
    (hinit : st.od.initialized = false) :
    loop_body ntimes i st ns =
      { stats := add_stat st.stats ns, od := st.od
        histogram := add_to_histogram st.histogram ns } := by
  simp only [loop_body, if_neg hP]
  rw [if_neg, if_neg]
  · rw [hinit]; simp
  · rintro ⟨hge, heq⟩
    rw [outlierInitPoint] at hge heq
    by_cases h50 : OUTLIER_CALIBRATION_SAMPLES ≤ ntimes
    · rw [if_pos h50] at heq
      exact harm ⟨h50, by exact_mod_cast heq⟩
    · rw [if_neg h50] at hge
      omega

lemma loop_body_arm (ntimes i : Nat) (st : LoopState) (ns : Nat)
    (h50 : OUTLIER_CALIBRATION_SAMPLES ≤ ntimes)
    (hi : i = prepareNtimes ntimes + OUTLIER_CALIBRATION_SAMPLES) :
    loop_body ntimes i st ns =
      { stats := add_stat st.stats ns
        od := (init_outlier_detection st.od st.stats).1
        histogram := add_to_histogram st.histogram ns } := by
  have hP : ¬ i < prepareNtimes ntimes := by
    rw [hi, OUTLIER_CALIBRATION_SAMPLES]; omega
  simp only [loop_body, if_neg hP]
  rw [if_pos]
  rw [outlierInitPoint, if_pos h50]
  exact ⟨by omega, by exact_mod_cast congrArg (Nat.cast : Nat → Int) hi⟩

lemma loop_body_armed (ntimes i : Nat) (st : LoopState) (ns : Nat)
    (hP : ¬ i < prepareNtimes ntimes)
    (hne : ¬(OUTLIER_CALIBRATION_SAMPLES ≤ ntimes ∧
      i = prepareNtimes ntimes + OUTLIER_CALIBRATION_SAMPLES))
    (hinit : st.od.initialized = true) :
    loop_body ntimes i st ns =
      { stats := if (check_outlier st.od ns).2 then st.stats else add_stat st.stats ns
        od := (check_outlier st.od ns).1
        histogram := add_to_histogram st.histogram ns } := by
  simp only [loop_body, if_neg hP]
  rw [if_neg, if_pos hinit]
  rintro ⟨hge, heq⟩
  rw [outlierInitPoint] at hge heq
  by_cases h50 : OUTLIER_CALIBRATION_SAMPLES ≤ ntimes
  · rw [if_pos h50] at heq
    exact hne ⟨h50, by exact_mod_cast heq⟩
  · rw [if_neg h50] at hge
    omega

lemma init_od_armed (od : OutlierDetection) (s : Stats) (h : s.count ≠ 0) :
    (init_outlier_detection od s).1 =
      { initialized := true
        calibration_avg := (s.sum : ℚ) / (s.count : ℚ)
        threshold := (s.sum : ℚ) / (s.count : ℚ) * OUTLIER_THRESHOLD_MULTIPLIER
        outlier_count := 0
        samples_after_init := 0 } := by
  simp [init_outlier_detection, compute_mean, h]

lemma check_outlier_armed (od : OutlierDetection) (v : Nat)
    (h : od.initialized = true) (hs : od.samples_after_init + 1 < U64)
    (ho : od.outlier_count + 1 < U64) :
    (check_outlier od v).1 =
      { od with
        samples_after_init := od.samples_after_init + 1
        outlier_count :=
          if (v : ℚ) > od.threshold then od.outlier_count + 1 else od.outlier_count } := by
  simp only [check_outlier, h]
  rw [if_neg (by simp : ¬(true = false))]
  rw [Nat.mod_eq_of_lt hs]
  by_cases hv : (v : ℚ) > od.threshold
  · rw [if_pos hv, if_pos hv]
    simp only
    rw [Nat.mod_eq_of_lt ho]
  · rw [if_neg hv, if_neg hv]

lemma check_outlier_flag (od : OutlierDetection) (v : Nat)
    (h : od.initialized = true) :
    (check_outlier od v).2 = decide ((v : ℚ) > od.threshold) := by
  simp only [check_outlier, h]
  rw [if_neg (by simp : ¬(true = false))]
  by_cases hv : (v : ℚ) > od.threshold
  · rw [if_pos hv, decide_eq_true hv]
  · rw [if_neg hv, decide_eq_false hv]

lemma loop_invariant (ntimes : Nat) (samples : List Nat)
    (h1 : 1 ≤ ntimes) (h2 : ntimes < 2 ^ 63)
    (hlen : samples.length = prepareNtimes ntimes + ntimes) :
    ∀ k, k ≤ samples.length →
      (¬(OUTLIER_CALIBRATION_SAMPLES ≤ ntimes ∧
          prepareNtimes ntimes + OUTLIER_CALIBRATION_SAMPLES < k) →
        (stateAt ntimes samples k).od = initOd ∧
        (stateAt ntimes samples k).stats.count = k - prepareNtimes ntimes) ∧
      (OUTLIER_CALIBRATION_SAMPLES ≤ ntimes →
       prepareNtimes ntimes + OUTLIER_CALIBRATION_SAMPLES < k →
        (stateAt ntimes samples k).od.initialized = true ∧
        (stateAt ntimes samples k).od.calibration_avg =
          (stateAt ntimes samples
            (prepareNtimes ntimes + OUTLIER_CALIBRATION_SAMPLES + 1)).od.calibration_avg ∧
        (stateAt ntimes samples k).od.threshold =
          (stateAt ntimes samples
            (prepareNtimes ntimes + OUTLIER_CALIBRATION_SAMPLES + 1)).od.threshold ∧
        (stateAt ntimes samples k).od.samples_after_init =
          k - (prepareNtimes ntimes + OUTLIER_CALIBRATION_SAMPLES + 1) ∧
        (stateAt ntimes samples k).od.outlier_count ≤
          k - (prepareNtimes ntimes + OUTLIER_CALIBRATION_SAMPLES + 1) ∧
        (stateAt ntimes samples k).stats.count =
          (k - prepareNtimes ntimes) - (stateAt ntimes samples k).od.outlier_count) := by
  have hC : OUTLIER_CALIBRATION_SAMPLES = 50 := rfl
  have hPle : prepareNtimes ntimes ≤ ntimes := Nat.div_le_self _ _
  have hU : U64 = 18446744073709551616 := by norm_num [U64]
  have h63 : (2 : Nat) ^ 63 = 9223372036854775808 := by norm_num
  intro k
  induction k with
  | zero =>
    intro _
    have h0 : stateAt ntimes samples 0 = initState := rfl
    refine ⟨fun _ => ⟨by rw [h0]; rfl, ?_⟩, fun _ hgt => absurd hgt (by omega)⟩
    rw [h0]
    show (0 : Nat) = 0 - prepareNtimes ntimes
    omega
  | succ k ih =>
    intro hk1
    have hk : k < samples.length := by omega
    have IH := ih (by omega)
    by_cases hkP : k < prepareNtimes ntimes
    · -- warm-up iteration: state unchanged
      have hstep : stateAt ntimes samples (k + 1) = stateAt ntimes samples k := by
        rw [stateAt_succ ntimes samples k hk, loop_body_warmup ntimes k _ _ hkP]
      rw [hstep]
      refine ⟨fun _ => ?_, fun _ hgt => absurd hgt (by omega)⟩
      obtain ⟨ha, hb⟩ := IH.1 (by rintro ⟨_, hb⟩; omega)
      exact ⟨ha, by omega⟩
    · push_neg at hkP
      by_cases h50 : OUTLIER_CALIBRATION_SAMPLES ≤ ntimes
      · by_cases hgt : prepareNtimes ntimes + OUTLIER_CALIBRATION_SAMPLES < k
        · -- armed region
          obtain ⟨hinit, havg, hthr, hsai, hocb, hcnt⟩ := IH.2 h50 hgt
          have hstep : stateAt ntimes samples (k + 1) =
              { stats := if (check_outlier (stateAt ntimes samples k).od
                    (samples.getD k 0)).2 then (stateAt ntimes samples k).stats
                  else add_stat (stateAt ntimes samples k).stats (samples.getD k 0)
                od := (check_outlier (stateAt ntimes samples k).od (samples.getD k 0)).1
                histogram := add_to_histogram (stateAt ntimes samples k).histogram
                  (samples.getD k 0) } := by
            rw [stateAt_succ ntimes samples k hk]
            exact loop_body_armed ntimes k _ _ (by omega) (by rintro ⟨_, hb⟩; omega) hinit
          have hsb : (stateAt ntimes samples k).od.samples_after_init + 1 < U64 := by
            rw [hsai]; omega
          have hob : (stateAt ntimes samples k).od.outlier_count + 1 < U64 := by omega
          have hco := check_outlier_armed (stateAt ntimes samples k).od
            (samples.getD k 0) hinit hsb hob
          have hcf := check_outlier_flag (stateAt ntimes samples k).od
            (samples.getD k 0) hinit
          rw [hstep]
          refine ⟨fun hcond => absurd ⟨h50, by omega⟩ hcond, fun _ _ => ?_⟩
          by_cases hv : ((samples.getD k 0 : Nat) : ℚ) >
              (stateAt ntimes samples k).od.threshold
          · rw [hco, hcf, decide_eq_true hv, if_pos hv]
            simp only [if_true]
            refine ⟨hinit, havg, hthr, by omega, by omega, by omega⟩
          · rw [hco, hcf, decide_eq_false hv, if_neg hv]
            simp only [Bool.false_eq_true, if_false]
            refine ⟨hinit, havg, hthr, by omega, by omega, ?_⟩
            simp only [add_stat]
            rw [hcnt, Nat.mod_eq_of_lt (by omega)]
            omega
        · by_cases hkc : k = prepareNtimes ntimes + OUTLIER_CALIBRATION_SAMPLES
          · -- arming iteration
            obtain ⟨hod, hcount⟩ := IH.1 (by rintro ⟨_, hb⟩; omega)
            have hcnt50 : (stateAt ntimes samples k).stats.count =
                OUTLIER_CALIBRATION_SAMPLES := by rw [hcount]; omega
            have hstep : stateAt ntimes samples (k + 1) =
                { stats := add_stat (stateAt ntimes samples k).stats (samples.getD k 0)
                  od := (init_outlier_detection (stateAt ntimes samples k).od
                    (stateAt ntimes samples k).stats).1
                  histogram := add_to_histogram (stateAt ntimes samples k).histogram
                    (samples.getD k 0) } := by
              rw [stateAt_succ ntimes samples k hk]
              exact loop_body_arm ntimes k _ _ h50 hkc
            have harmed := init_od_armed (stateAt ntimes samples k).od
              (stateAt ntimes samples k).stats (by rw [hcnt50, hC]; omega)
            have hidx : k + 1 =
                prepareNtimes ntimes + OUTLIER_CALIBRATION_SAMPLES + 1 := by omega
            rw [hidx] at hstep ⊢
            refine ⟨fun hcond => absurd ⟨h50, by omega⟩ hcond, fun _ _ => ?_⟩
            refine ⟨?_, rfl, rfl, ?_, ?_, ?_⟩
            · rw [hstep, harmed]
            · rw [hstep, harmed]
              show (0 : Nat) = _
              omega
            · rw [hstep, harmed]
              show (0 : Nat) ≤ _
              omega
            · rw [hstep, harmed]
              simp only [add_stat]
              rw [hcnt50]
              show (OUTLIER_CALIBRATION_SAMPLES + 1) % U64 = _
              rw [Nat.mod_eq_of_lt (by omega)]
              omega
          · -- calibration region: detector still inert
            obtain ⟨hod, hcount⟩ := IH.1 (by rintro ⟨_, hb⟩; omega)
            have hinit : (stateAt ntimes samples k).od.initialized = false := by
              rw [hod]; rfl
            have hstep : stateAt ntimes samples (k + 1) =
                { stats := add_stat (stateAt ntimes samples k).stats (samples.getD k 0)
                  od := (stateAt ntimes samples k).od
                  histogram := add_to_histogram (stateAt ntimes samples k).histogram
                    (samples.getD k 0) } := by
              rw [stateAt_succ ntimes samples k hk]
              exact loop_body_pre ntimes k _ _ (by omega)
                (by rintro ⟨_, hb⟩; exact hkc hb) hinit
            rw [hstep]
            refine ⟨fun _ => ⟨hod, ?_⟩, fun _ hgt2 => absurd hgt2 (by omega)⟩
            simp only [add_stat]
            rw [hcount, Nat.mod_eq_of_lt (by omega)]
            omega
      · -- ntimes below the calibration floor: detector inert for the whole run
        obtain ⟨hod, hcount⟩ := IH.1 (by rintro ⟨ha, _⟩; exact h50 ha)
        have hinit : (stateAt ntimes samples k).od.initialized = false := by
          rw [hod]; rfl
        have hstep : stateAt ntimes samples (k + 1) =
            { stats := add_stat (stateAt ntimes samples k).stats (samples.getD k 0)
              od := (stateAt ntimes samples k).od
              histogram := add_to_histogram (stateAt ntimes samples k).histogram
                (samples.getD k 0) } := by
          rw [stateAt_succ ntimes samples k hk]
          exact loop_body_pre ntimes k _ _ (by omega)
            (by rintro ⟨ha, _⟩; exact h50 ha) hinit
        rw [hstep]
        refine ⟨fun _ => ⟨hod, ?_⟩, fun ha _ => absurd ha h50⟩
        simp only [add_stat]
        rw [hcount, Nat.mod_eq_of_lt (by omega)]
        omega

/-! ## Claim theorems -/

/-- C1: the claim states that the variance computed by `print_stats` is
clamped to zero whenever `sum_of_squares/divisor - mean²` is negative, so
that the reported stddev is never the square root of a negative number.
The C code applies no clamp: for the stats obtained by admitting the
samples 1 and 1 (sum = 2, sum_of_squares = 2, count = 2) and the positive
divisor 1, the variance handed to `sqrt` is exactly −2, a negative
number. -/
theorem c1_unclamped_negative_variance :
    (print_stats (add_stat (add_stat initStats 1) 1) 1).variance = -2 ∧
    (print_stats (add_stat (add_stat initStats 1) 1) 1).variance < 0 := by
  norm_num [print_stats, add_stat, initStats, U64]

/-- C2: over a full run of `1 ≤ ntimes < 2^63` requested samples (so
`prepare_ntimes + ntimes` loop iterations), the detector stays inert for
the whole run when `ntimes` is below the calibration floor; the
`initialized` flag of the detector, as a function of the number of
processed iterations `k`, is `true` exactly for
`k > prepare_ntimes + OUTLIER_CALIBRATION_SAMPLES` (so it flips from
false to true at most once, exactly at the precomputed calibration
point); and once armed, `calibration_avg` and `threshold` keep the values
they received at arming while `samples_after_init` equals the number of
samples observed strictly after the calibration point. -/
theorem c2_calibration_invariant (ntimes : Nat) (samples : List Nat)
    (h1 : 1 ≤ ntimes) (h2 : ntimes < 2 ^ 63)
    (hlen : samples.length = prepareNtimes ntimes + ntimes) :
    (ntimes < OUTLIER_CALIBRATION_SAMPLES → ∀ k ≤ samples.length,
      (stateAt ntimes samples k).od.initialized = false) ∧
    (∀ k ≤ samples.length,
      ((stateAt ntimes samples k).od.initialized = true ↔
        OUTLIER_CALIBRATION_SAMPLES ≤ ntimes ∧
          prepareNtimes ntimes + OUTLIER_CALIBRATION_SAMPLES < k)) ∧
    (∀ k ≤ samples.length, prepareNtimes ntimes + OUTLIER_CALIBRATION_SAMPLES < k →
      (stateAt ntimes samples k).od.calibration_avg =
        (stateAt ntimes samples
          (prepareNtimes ntimes + OUTLIER_CALIBRATION_SAMPLES + 1)).od.calibration_avg ∧
      (stateAt ntimes samples k).od.threshold =
        (stateAt ntimes samples
          (prepareNtimes ntimes + OUTLIER_CALIBRATION_SAMPLES + 1)).od.threshold ∧
      (stateAt ntimes samples k).od.samples_after_init =
        k - (prepareNtimes ntimes + OUTLIER_CALIBRATION_SAMPLES + 1)) := by
  have hInv := loop_invariant ntimes samples h1 h2 hlen
  refine ⟨?_, ?_, ?_⟩
  · intro hlt k hk
    obtain ⟨hod, _⟩ := (hInv k hk).1 (by rintro ⟨ha, _⟩; omega)
    rw [hod]; rfl
  · intro k hk
    constructor
    · intro hi
      by_contra hcond
      obtain ⟨hod, _⟩ := (hInv k hk).1 hcond
      rw [hod] at hi
      simp [initOd] at hi
    · rintro ⟨ha, hb⟩
      exact ((hInv k hk).2 ha hb).1
  · intro k hk hgt
    have hC : OUTLIER_CALIBRATION_SAMPLES = 50 := rfl
    have h50 : OUTLIER_CALIBRATION_SAMPLES ≤ ntimes := by
      have hk2 : k ≤ prepareNtimes ntimes + ntimes := hlen ▸ hk
      omega
    obtain ⟨_, havg, hthr, hsai, _, _⟩ := (hInv k hk).2 h50 hgt
    exact ⟨havg, hthr, hsai⟩

/-- C2 witness: a run with 55 requested samples (11 warm-up iterations, 66
iterations in total, calibration point at loop index 61) ends with the
detector armed. -/
theorem c2_calibration_invariant_witness :
    (1 ≤ 55 ∧ 55 < 2 ^ 63 ∧
      (List.replicate 66 (100 : Nat)).length = prepareNtimes 55 + 55) ∧
    (stateAt 55 (List.replicate 66 (100 : Nat)) 66).od.initialized = true := by
  have hlen : (List.replicate 66 (100 : Nat)).length = prepareNtimes 55 + 55 := by
    simp [prepareNtimes]
  refine ⟨⟨by norm_num, by norm_num, hlen⟩, ?_⟩
  refine ((c2_calibration_invariant 55 (List.replicate 66 100) (by norm_num)
    (by norm_num) hlen).2.1 66 (by simp)).mpr ?_
  refine ⟨by norm_num [OUTLIER_CALIBRATION_SAMPLES], ?_⟩
  norm_num [prepareNtimes, OUTLIER_CALIBRATION_SAMPLES]

/-- C3: `check_outlier` on an uninitialized detector returns "accepted"
(`false`) and changes no state; on an initialized detector (whose
counters are not at the wrap-around boundary) it increments
`samples_after_init` by exactly one and reports an outlier, also
incrementing `outlier_count`, iff `value > threshold`; the threshold set
at calibration is the calibration mean times
`OUTLIER_THRESHOLD_MULTIPLIER` (10); and a sample exactly equal to the
threshold is accepted. -/
theorem c3_check_outlier_classification (od : OutlierDetection) (value : Nat) :
    (od.initialized = false → check_outlier od value = (od, false)) ∧
    (od.initialized = true → od.samples_after_init + 1 < U64 →
      od.outlier_count + 1 < U64 →
      check_outlier od value =
        if (value : ℚ) > od.threshold then
          ({ od with samples_after_init := od.samples_after_init + 1
                     outlier_count := od.outlier_count + 1 }, true)
        else
          ({ od with samples_after_init := od.samples_after_init + 1 }, false)) ∧
    (∀ s : Stats, 0 < s.count →
      ((init_outlier_detection od s).1).threshold =
        (s.sum : ℚ) / (s.count : ℚ) * OUTLIER_THRESHOLD_MULTIPLIER) ∧
    (od.initialized = true → (value : ℚ) = od.threshold →
      (check_outlier od value).2 = false) := by
  refine ⟨?_, ?_, ?_, ?_⟩
  · intro h; simp [check_outlier, h]
  · intro h h1 h2
    simp only [check_outlier, h]
    rw [Nat.mod_eq_of_lt h1, Nat.mod_eq_of_lt h2]
    simp
  · intro s hs
    simp [init_outlier_detection, compute_mean, Nat.pos_iff_ne_zero.mp hs]
  · intro h he
    simp [check_outlier, h, he]

/-- C3 witness: an armed detector with threshold 1000 that observes the
sample 1000 (exactly the threshold) accepts it while still counting it in
`samples_after_init`. -/
theorem c3_check_outlier_classification_witness :
    ((OutlierDetection.mk true 100 1000 0 0).initialized = true ∧
      0 + 1 < U64 ∧ 0 + 1 < U64) ∧
    check_outlier (OutlierDetection.mk true 100 1000 0 0) 1000 =
      ({ OutlierDetection.mk true 100 1000 0 0 with
          samples_after_init := 0 + 1 }, false) := by
  refine ⟨⟨rfl, by norm_num [U64], by norm_num [U64]⟩, ?_⟩
  have := (c3_check_outlier_classification (OutlierDetection.mk true 100 1000 0 0)
    1000).2.1 rfl (by norm_num [U64]) (by norm_num [U64])
  rw [this]
  norm_num

/-- C4: the outlier warning is printed iff the detector is armed, has seen
at least one post-calibration sample, and more than 5% of those samples
were outliers; moreover, in the concrete scenario of a detector calibrated
on ten samples of 100 (threshold 1000) that then observes the single
sample 5000, that sample is rejected, `outlier_count = 1`,
`samples_after_init = 1` and the warning fires. -/
theorem c4_outlier_warning_condition (od : OutlierDetection) :
    (check_outlier_warning od = true ↔
      od.initialized = true ∧ 0 < od.samples_after_init ∧
        (od.outlier_count : ℚ) / (od.samples_after_init : ℚ) * 100 > 5) ∧
    ((init_outlier_detection initOd
        (([100, 100, 100, 100, 100, 100, 100, 100, 100, 100] : List Nat).foldl
          add_stat initStats)).1.threshold = 1000 ∧
     (check_outlier (init_outlier_detection initOd
        (([100, 100, 100, 100, 100, 100, 100, 100, 100, 100] : List Nat).foldl
          add_stat initStats)).1 5000).2 = true ∧
     ((check_outlier (init_outlier_detection initOd
        (([100, 100, 100, 100, 100, 100, 100, 100, 100, 100] : List Nat).foldl
          add_stat initStats)).1 5000).1.outlier_count = 1 ∧
     ((check_outlier (init_outlier_detection initOd
        (([100, 100, 100, 100, 100, 100, 100, 100, 100, 100] : List Nat).foldl
          add_stat initStats)).1 5000).1.samples_after_init = 1 ∧
     check_outlier_warning (check_outlier (init_outlier_detection initOd
        (([100, 100, 100, 100, 100, 100, 100, 100, 100, 100] : List Nat).foldl
          add_stat initStats)).1 5000).1 = true))) := by
  constructor
  · rw [check_outlier_warning]
    split
    · next h =>
      simp only [Bool.false_eq_true, false_iff]
      rintro ⟨h1, h2, _⟩
      rcases h with h | h
      · simp [h1] at h
      · omega
    · next h =>
      push_neg at h
      obtain ⟨h1, h2⟩ := h
      simp only [decide_eq_true_iff]
      constructor
      · intro hq
        exact ⟨Bool.not_eq_false _ |>.mp h1, Nat.pos_of_ne_zero h2, hq⟩
      · rintro ⟨_, _, hq⟩; exact hq
  · norm_num [check_outlier_warning, check_outlier, init_outlier_detection,
      compute_mean, add_stat, initStats, U64, List.foldl,
      OUTLIER_THRESHOLD_MULTIPLIER]

/-- C5: `init_outlier_detection` returns `false` and leaves every field of
the detector unchanged whenever the stats snapshot has `count = 0`; for
`count > 0` it returns `true` and arms the detector with
`calibration_avg = sum / count` and
`threshold = calibration_avg * OUTLIER_THRESHOLD_MULTIPLIER` (10). -/
theorem c5_init_outlier_detection_guard (od : OutlierDetection) (s : Stats) :
    (s.count = 0 → init_outlier_detection od s = (od, false)) ∧
    (0 < s.count →
      init_outlier_detection od s =
        ({ initialized := true
           calibration_avg := (s.sum : ℚ) / (s.count : ℚ)
           threshold := (s.sum : ℚ) / (s.count : ℚ) * OUTLIER_THRESHOLD_MULTIPLIER
           outlier_count := 0
           samples_after_init := 0 }, true)) := by
  constructor
  · intro h
    simp [init_outlier_detection, compute_mean, h]
  · intro h
    simp [init_outlier_detection, compute_mean, Nat.pos_iff_ne_zero.mp h]

/-- C5 witness: calibrating against the freshly initialized stats
(`count = 0`) fails and leaves the detector untouched. -/
theorem c5_init_outlier_detection_guard_witness :
    initStats.count = 0 ∧ init_outlier_detection initOd initStats = (initOd, false) :=
  ⟨rfl, (c5_init_outlier_detection_guard initOd initStats).1 rfl⟩

/-- C6: `add_stat` updates the accumulator by `sum += v`,
`sum_of_squares += v²`, `count += 1` (all `uint64_t` additions),
`min = min(min, v)`, `max = max(max, v)`, and it is a total function
(never fails); admitting the samples 10, 20, 30 from the initial state
yields sum 60, sum_of_squares 1400, min 10, max 30, count 3, and
finalizing with divisor `count` gives mean 20 and variance
`1400/3 − 400 = 200/3 ≈ 66.67`, whose square root lies between 8.164 and
8.165 (so the reported stddev is ≈ 8.165). -/
theorem c6_add_stat_update_and_scenario (s : Stats) (v : Nat) :
    add_stat s v =
      { sum := (s.sum + v) % U64
        sum_of_squares := (s.sum_of_squares + v * v) % U64
        min := if v < s.min then v else s.min
        max := if v > s.max then v else s.max
        count := (s.count + 1) % U64 } ∧
    ([10, 20, 30] : List Nat).foldl add_stat initStats =
      { sum := 60, sum_of_squares := 1400, min := 10, max := 30, count := 3 } ∧
    (print_stats (([10, 20, 30] : List Nat).foldl add_stat initStats) 3).mean = 20 ∧
    (print_stats (([10, 20, 30] : List Nat).foldl add_stat initStats) 3).variance =
      1400 / 3 - 400 ∧
    ((8164 / 1000 : ℚ) ^ 2 < 1400 / 3 - 400 ∧
      (1400 / 3 - 400 : ℚ) < (8165 / 1000) ^ 2) := by
  refine ⟨rfl, by norm_num [add_stat, initStats, U64, List.foldl], ?_, ?_,
    by norm_num, by norm_num⟩
  · norm_num [print_stats, add_stat, initStats, U64, List.foldl]
  · norm_num [print_stats, add_stat, initStats, U64, List.foldl]

/-- C7 counterexample: the claim asserts `min ≤ sum/count ≤ max` after any
sequence of `add_stat` calls once `count > 0`.  Admitting the value `2^63`
twice makes the `uint64_t` running sum wrap around to 0 (such huge
durations are producible by the unsigned duration computation when the
clock reads are out of order), so the mean is 0 while `min = 2^63`:
`min ≤ sum/count` fails. -/
theorem c7_mean_within_bounds_counterexample :
    0 < (add_stat (add_stat initStats (2 ^ 63)) (2 ^ 63)).count ∧
    ¬ ((add_stat (add_stat initStats (2 ^ 63)) (2 ^ 63)).min : ℚ) ≤
        ((add_stat (add_stat initStats (2 ^ 63)) (2 ^ 63)).sum : ℚ) /
          ((add_stat (add_stat initStats (2 ^ 63)) (2 ^ 63)).count : ℚ) := by
  norm_num [add_stat, initStats, U64]

/-- C7 as amended: for any nonempty sequence of admitted samples whose
total and length stay below `2^64` (so that no `uint64_t` accumulator
wraps), the resulting state bounds every admitted value by `min` and
`max`, satisfies `min ≤ sum/count ≤ max`, and the first admitted sample
(any value representable in 64 bits) updates both bounds, since the state
is initialized with `min = UINT64_MAX` and `max = 0`. -/
theorem c7_mean_within_bounds_no_overflow (l : List Nat) (hne : l ≠ [])
    (hsum : l.sum < U64) (hlen : l.length < U64) :
    (∀ v ∈ l, (l.foldl add_stat initStats).min ≤ v ∧
      v ≤ (l.foldl add_stat initStats).max) ∧
    ((l.foldl add_stat initStats).min : ℚ) ≤
      ((l.foldl add_stat initStats).sum : ℚ) /
        ((l.foldl add_stat initStats).count : ℚ) ∧
    ((l.foldl add_stat initStats).sum : ℚ) /
        ((l.foldl add_stat initStats).count : ℚ) ≤
      ((l.foldl add_stat initStats).max : ℚ) ∧
    (∀ v, v < U64 → (add_stat initStats v).min = v ∧ (add_stat initStats v).max = v) := by
  have hsum' : (l.foldl add_stat initStats).sum = l.sum := by
    have := foldl_add_stat_sum l initStats (by simpa [initStats] using hsum)
    simpa [initStats] using this
  have hcount : (l.foldl add_stat initStats).count = l.length := by
    have := foldl_add_stat_count l initStats (by simpa [initStats] using hlen)
    simpa [initStats] using this
  have hpos : 0 < l.length := List.length_pos.mpr hne
  have hcpos : (0 : ℚ) < ((l.foldl add_stat initStats).count : ℚ) := by
    rw [hcount]; exact_mod_cast hpos
  refine ⟨?_, ?_, ?_, ?_⟩
  · intro v hv
    exact ⟨foldl_add_stat_min_le l initStats v hv, foldl_add_stat_le_max l initStats v hv⟩
  · rw [le_div_iff₀ hcpos]
    have hb : (l.foldl add_stat initStats).min * l.length ≤ l.sum :=
      mul_length_le_sum l _ (fun v hv => foldl_add_stat_min_le l initStats v hv)
    rw [hsum', hcount]
    exact_mod_cast hb
  · rw [div_le_iff₀ hcpos]
    have hb : l.sum ≤ (l.foldl add_stat initStats).max * l.length :=
      sum_le_mul_length l _ (fun v hv => foldl_add_stat_le_max l initStats v hv)
    rw [hsum', hcount]
    exact_mod_cast hb
  · intro v hv
    simp only [add_stat, initStats]
    constructor
    · split <;> omega
    · split <;> omega

/-- C7 witness: the amended bounds hold for the admitted samples 10, 20,
30 (min 10, mean 20). -/
theorem c7_mean_within_bounds_no_overflow_witness :
    (([10, 20, 30] : List Nat) ≠ [] ∧ ([10, 20, 30] : List Nat).sum < U64 ∧
      ([10, 20, 30] : List Nat).length < U64) ∧
    ((([10, 20, 30] : List Nat).foldl add_stat initStats).min : ℚ) ≤
      ((([10, 20, 30] : List Nat).foldl add_stat initStats).sum : ℚ) /
        ((([10, 20, 30] : List Nat).foldl add_stat initStats).count : ℚ) := by
  refine ⟨⟨by simp, by norm_num [U64], by norm_num [U64]⟩, ?_⟩
  exact (c7_mean_within_bounds_no_overflow [10, 20, 30] (by simp)
    (by norm_num [U64]) (by norm_num [U64])).2.1

/-- C8: an in-range sample (`HIST_MIN ≤ v < HIST_MAX`) makes
`add_to_histogram` increment exactly the bucket `(v - HIST_MIN) /
HIST_STEP`, leaving every other bucket unchanged; an out-of-range sample
leaves the array untouched (silent drop, no overflow buckets); and for
any sequence of recorded samples shorter than `2^64` (every sequence the
program can produce: the loop runs at most `6/5 · INT_MAX` iterations)
the bucket counts of the histogram accumulated from the zeroed array sum
to exactly the number of in-range samples. -/
theorem c8_histogram_increment_and_sum (h : List Nat) (v : Nat) (l : List Nat)
    (hh : h.length = HIST_BUCKETS)
    (hcap : h.getD ((v - HIST_MIN) / HIST_STEP) 0 + 1 < U64)
    (hl : l.length < U64) :
    (HIST_MIN ≤ v ∧ v < HIST_MAX →
      add_to_histogram h v =
        h.set ((v - HIST_MIN) / HIST_STEP)
          (h.getD ((v - HIST_MIN) / HIST_STEP) 0 + 1) ∧
      (∀ j, j ≠ (v - HIST_MIN) / HIST_STEP →
        (add_to_histogram h v).getD j 0 = h.getD j 0)) ∧
    (¬(HIST_MIN ≤ v ∧ v < HIST_MAX) → add_to_histogram h v = h) ∧
    ((l.foldl add_to_histogram (List.replicate HIST_BUCKETS 0)).sum =
      (l.filter fun u => decide (HIST_MIN ≤ u ∧ u < HIST_MAX)).length) := by
  refine ⟨?_, hist_out_range_step h v, ?_⟩
  · intro hv
    refine ⟨hist_in_range_step h v hcap hv, ?_⟩
    intro j hj
    rw [hist_in_range_step h v hcap hv]
    by_cases hjlen : j < h.length
    · rw [List.getD_eq_getElem _ 0 (by rw [List.length_set]; exact hjlen),
        List.getD_eq_getElem _ 0 hjlen]
      exact List.getElem_set_ne (by omega) _
    · rw [List.getD_eq_default _ 0 (by rw [List.length_set]; omega),
        List.getD_eq_default _ 0 (by omega)]
  · rw [fold_hist_sum l _ (by simp) ?caps3]
    · simp
    case caps3 =>
      intro x hx
      have := List.eq_of_mem_replicate hx
      omega

/-- C8 witness: recording 50, 150, 150, 250 into the zeroed histogram
leaves bucket counts summing to 3 (the value 50 is dropped as below
`HIST_MIN`). -/
theorem c8_histogram_increment_and_sum_witness :
    ((List.replicate HIST_BUCKETS 0 : List Nat).length = HIST_BUCKETS ∧
      (List.replicate HIST_BUCKETS 0 : List Nat).getD
        ((150 - HIST_MIN) / HIST_STEP) 0 + 1 < U64 ∧
      ([50, 150, 150, 250] : List Nat).length < U64) ∧
    (([50, 150, 150, 250] : List Nat).foldl add_to_histogram
        (List.replicate HIST_BUCKETS 0)).sum =
      (([50, 150, 150, 250] : List Nat).filter
        fun u => decide (HIST_MIN ≤ u ∧ u < HIST_MAX)).length := by
  refine ⟨⟨by simp, by norm_num [U64, HIST_MIN, HIST_STEP, HIST_BUCKETS, HIST_MAX],
    by norm_num [U64]⟩, ?_⟩
  exact (c8_histogram_increment_and_sum (List.replicate HIST_BUCKETS 0) 150
    [50, 150, 150, 250] (by simp)
    (by norm_num [U64, HIST_MIN, HIST_STEP, HIST_BUCKETS, HIST_MAX])
    (by norm_num [U64])).2.2

/-- C9 counterexample: the claim states that setup errors are reported to
standard error.  A run invoked with the wrong argument count (argc = 3)
exits with status 1 but writes nothing to standard error (the
`argc != 4` branch of `main` is a bare `return 1`). -/
theorem c9_exit_status_counterexample :
    (main_model 3 true 10 0 []).exit_code = 1 ∧
    (main_model 3 true 10 0 []).stderr_report = false := by
  constructor <;> rfl

/-- C9 as amended: the process exits with status 1 on a wrong argument
count, on histogram allocation failure, on a non-positive repeat count,
and on any iteration whose open outcome contradicts the expected errno,
and in every failure case no stats/histogram records are printed; only
the allocation failure (and the outcome mismatch) is reported to standard
error, while the wrong argument count and the non-positive repeat count
exit silently; a run whose iterations all match expectations exits with
status 0 after printing the cstats and chist records. -/
theorem c9_exit_status_and_reporting (argc : Nat) (alloc_ok : Bool)
    (ntimes : Int) (err : Int) (outcomes : List (Option Int)) :
    (argc ≠ 4 → main_model argc alloc_ok ntimes err outcomes =
      { exit_code := 1, stderr_report := false
        stats_printed := false, hist_printed := false }) ∧
    (argc = 4 → alloc_ok = false → main_model argc alloc_ok ntimes err outcomes =
      { exit_code := 1, stderr_report := true
        stats_printed := false, hist_printed := false }) ∧
    (argc = 4 → alloc_ok = true → ntimes ≤ 0 →
      main_model argc alloc_ok ntimes err outcomes =
      { exit_code := 1, stderr_report := false
        stats_printed := false, hist_printed := false }) ∧
    (argc = 4 → alloc_ok = true → 0 < ntimes →
      outcomes.any (outcome_mismatch err) = true →
      main_model argc alloc_ok ntimes err outcomes =
      { exit_code := 1, stderr_report := true
        stats_printed := false, hist_printed := false }) ∧
    (argc = 4 → alloc_ok = true → 0 < ntimes →
      outcomes.any (outcome_mismatch err) = false →
      main_model argc alloc_ok ntimes err outcomes =
      { exit_code := 0, stderr_report := false
        stats_printed := true, hist_printed := true }) := by
  refine ⟨?_, ?_, ?_, ?_, ?_⟩
  · intro h; simp [main_model, h]
  · intro h1 h2; simp [main_model, h1, h2]
  · intro h1 h2 h3; simp [main_model, h1, h2, h3]
  · intro h1 h2 h3 h4; simp [main_model, h1, h2, h4, not_le.mpr h3]
  · intro h1 h2 h3 h4; simp [main_model, h1, h2, h4, not_le.mpr h3]

/-- C9 witness: a well-formed run of two iterations (one expected-success
open that succeeds, one that also succeeds) exits 0 and prints both
records. -/
theorem c9_exit_status_and_reporting_witness :
    ((4 : Nat) = 4 ∧ (true : Bool) = true ∧ (0 : Int) < 10 ∧
      ([some 0, none] : List (Option Int)).any (outcome_mismatch 0) = false) ∧
    main_model 4 true 10 0 [some 0, none] =
      { exit_code := 0, stderr_report := false
        stats_printed := true, hist_printed := true } := by
  refine ⟨⟨rfl, rfl, by norm_num, by decide⟩, ?_⟩
  exact (c9_exit_status_and_reporting 4 true 10 0 [some 0, none]).2.2.2.2 rfl rfl
    (by norm_num) (by decide)

/-- C10: the final report of a completed run is
`print_stats(&stats, stats.count)`: its `ntimes` field equals the
accumulator count, which equals the number of admitted samples — the
requested `ntimes` minus the number of rejected outliers — and its mean
is `sum` divided by that admitted count. -/
theorem c10_report_uses_admitted_count (ntimes : Nat) (samples : List Nat)
    (h1 : 1 ≤ ntimes) (h2 : ntimes < 2 ^ 63)
    (hlen : samples.length = prepareNtimes ntimes + ntimes) :
    (final_report (run_main ntimes samples)).ntimes =
      (run_main ntimes samples).stats.count ∧
    (run_main ntimes samples).stats.count =
      ntimes - (run_main ntimes samples).od.outlier_count ∧
    (final_report (run_main ntimes samples)).mean =
      ((run_main ntimes samples).stats.sum : ℚ) /
        ((run_main ntimes samples).stats.count : ℚ) := by
  have hrm : run_main ntimes samples = stateAt ntimes samples samples.length := by
    unfold run_main stateAt
    rw [List.take_length]
  have hInv := loop_invariant ntimes samples h1 h2 hlen
  refine ⟨rfl, ?_, rfl⟩
  rw [hrm]
  by_cases hcond : OUTLIER_CALIBRATION_SAMPLES ≤ ntimes ∧
      prepareNtimes ntimes + OUTLIER_CALIBRATION_SAMPLES < samples.length
  · obtain ⟨_, _, _, _, hocb, hcnt⟩ :=
      (hInv samples.length le_rfl).2 hcond.1 hcond.2
    rw [hcnt]
    have hPle : prepareNtimes ntimes ≤ ntimes := Nat.div_le_self _ _
    omega
  · obtain ⟨hod, hcnt⟩ := (hInv samples.length le_rfl).1 hcond
    rw [hcnt, hod]
    have hoc : initOd.outlier_count = 0 := rfl
    rw [hoc]
    omega

/-- C10 witness: a run of 55 requested samples in which the sample at
loop index 62 (value 5000, well above the threshold 1000 calibrated from
samples of 100) is rejected, so the admitted count is 55 minus the
outlier count. -/
theorem c10_report_uses_admitted_count_witness :
    (1 ≤ 55 ∧ 55 < 2 ^ 63 ∧
      (List.replicate 62 (100 : Nat) ++ 5000 :: List.replicate 3 100).length =
        prepareNtimes 55 + 55) ∧
    (run_main 55
        (List.replicate 62 (100 : Nat) ++ 5000 :: List.replicate 3 100)).stats.count =
      55 - (run_main 55
        (List.replicate 62 (100 : Nat) ++ 5000 :: List.replicate 3 100)).od.outlier_count := by
  have hlen : (List.replicate 62 (100 : Nat) ++ 5000 :: List.replicate 3 100).length =
      prepareNtimes 55 + 55 := by
    simp [prepareNtimes]
  exact ⟨⟨by norm_num, by norm_num, hlen⟩,
    (c10_report_uses_admitted_count 55 _ (by norm_num) (by norm_num) hlen).2.1⟩
